import Mathlib

/-
  Verification development for the quatronaut2020 gameplay core.

  Shallow embedding of the Rust sources:
    * `src/components/collider.rs`   — AABB construction and intersection
    * `src/resources/playablearea.rs`— playable-area rectangle utilities
    * `src/components/fade.rs`       — fade-to-black state machine
    * `src/components/launcher.rs`   — fire-rate gating
    * `src/resources/level.rs`       — level sequencing state machine
    * `src/components/perspective.rs`— camera shake and zoom state machine
    * `src/components/movement.rs`   — movement strategy engine
    * `src/systems/collision.rs`     — laser-vs-enemy collision resolution
    * `src/entities/enemy.rs`        — enemy health / damage

  Rust `f32` arithmetic on configuration and game-state values is modelled
  with exact rational arithmetic (`ℚ`); the trigonometric computations of
  the movement engine are modelled over the reals (`ℝ`).  Calls to
  `thread_rng` in the sources are modelled by passing the sampled value as
  an explicit argument.  Mutation through `&mut self` is modelled by
  returning the updated structure (paired with the Rust return value).
-/

namespace Quatronaut

/-! ## Sound cues (`src/resources/audio.rs`) -/

/-- The sound cue identifiers from `resources/audio.rs`. -/
inductive SoundType
  | PlayerBlaster
  | PlayerDeath
  | EnemyBlaster
  | EnemyDeath
  | TriangleLock
  | ShortTransition
  | LongTransition
  | GlassTransition
  | NoSound
deriving DecidableEq, Repr

/-! ## Collider and AABB (`src/components/collider.rs`)

`Collider::aabb_from_coordinates` builds an `ncollide2d` `AABB` from a
`Cuboid` with the collider's half extents placed (unrotated) at `(x, y)`;
that bounding volume is `mins = center - half_extents`,
`maxs = center + half_extents`.  `AABB::intersects` from `ncollide2d` is
`self.mins <= other.maxs && self.maxs >= other.mins` componentwise. -/

/-- An axis-aligned bounding box, the payload of `ncollide2d`'s `AABB<f32>`. -/
structure AABB where
  min_x : ℚ
  max_x : ℚ
  min_y : ℚ
  max_y : ℚ
deriving DecidableEq, Repr

/-- `Collider { half_width, half_height }`. -/
structure Collider where
  half_width : ℚ
  half_height : ℚ
deriving DecidableEq, Repr

/-- `Collider::aabb_from_coordinates`. -/
def Collider.aabb_from_coordinates (c : Collider) (x y : ℚ) : AABB :=
  { min_x := x - c.half_width
    max_x := x + c.half_width
    min_y := y - c.half_height
    max_y := y + c.half_height }

/-- `ncollide2d` `AABB::intersects` (componentwise mins/maxs comparison). -/
def AABB.intersects (a other : AABB) : Bool :=
  decide (a.min_x ≤ other.max_x) && decide (a.max_x ≥ other.min_x) &&
    decide (a.min_y ≤ other.max_y) && decide (a.max_y ≥ other.min_y)

/-- `Collider::intersects`. -/
def Collider.intersects (c : Collider) (x y : ℚ) (other : AABB) : Bool :=
  (c.aabb_from_coordinates x y).intersects other

/-! ## Playable area (`src/resources/playablearea.rs`) -/

/-- `PlayableArea` — a rectangle in world coordinates. -/
structure PlayableArea where
  min_x : ℚ
  max_x : ℚ
  min_y : ℚ
  max_y : ℚ
deriving DecidableEq, Repr

/-- `PlayableArea::relative_coordinates`. -/
def PlayableArea.relative_coordinates (a : PlayableArea) (x_percentage y_percentage : ℚ) :
    ℚ × ℚ :=
  let x_diff := a.max_x - a.min_x
  let y_diff := a.max_y - a.min_y
  let x_pos := x_percentage * x_diff + a.min_x
  let y_pos := y_percentage * y_diff + a.min_y
  (x_pos, y_pos)

/-! ## Fade state machine (`src/components/fade.rs`) -/

/-- The `Fade` direction enum. -/
inductive Fade
  | Darken
  | Lighten
  | Done
deriving DecidableEq, Repr

/-- The `Fader` struct: a speed, a direction, and an alpha level. -/
structure Fader where
  fade_speed : ℚ
  fade_direction : Fade
  alpha : ℚ
deriving DecidableEq, Repr

/-- `Fader::is_darkened`. -/
def Fader.is_darkened (f : Fader) : Bool :=
  decide (f.fade_direction = Fade.Darken) && decide (f.alpha ≥ 1)

/-- `Fader.is_lightened`. -/
def Fader.is_lightened (f : Fader) : Bool :=
  decide (f.fade_direction = Fade.Lighten) && decide (f.alpha ≤ 0)

/-- `Fader::next_alpha_change` (`&mut self` modelled by returning the
returned alpha together with the updated `Fader`). -/
def Fader.next_alpha_change (f : Fader) (time_delta : ℚ) : ℚ × Fader :=
  let change_amt := f.fade_speed * time_delta
  let f1 :=
    match f.fade_direction with
    | Fade.Darken => { f with alpha := f.alpha + change_amt }
    | Fade.Lighten => { f with alpha := f.alpha - change_amt }
    | Fade.Done => f
  let f2 :=
    if f1.is_darkened then { f1 with fade_direction := Fade.Lighten }
    else if f1.is_lightened then { f1 with fade_direction := Fade.Done }
    else f1
  (f2.alpha, f2)

/-! ## Fire-rate gating (`src/components/launcher.rs`) -/

/-- The `Launcher` struct. -/
structure Launcher where
  fire_delay : ℚ
  projectile_speed : ℚ
  seconds_since_firing : ℚ
deriving DecidableEq, Repr

/-- `Launcher::can_fire`.  The `thread_rng().gen_range(0.1..0.9)` sample used
to reset the timer is passed in as `jitter`. -/
def Launcher.can_fire (l : Launcher) (jitter : ℚ) (time : ℚ) : Bool × Launcher :=
  if l.seconds_since_firing ≥ l.fire_delay then
    (true, { l with seconds_since_firing := jitter })
  else
    (false, { l with seconds_since_firing := l.seconds_since_firing + time })

/-! ## Level sequencing (`src/resources/level.rs`) -/

/-- `EntityType` — the entity kinds allowed in the text-based level editor. -/
inductive EntityType
  | FlyingEnemy
  | SquareEnemy
  | Boss
  | Player
deriving DecidableEq, Repr

/-- `LevelMetadata { layout: Vec<EntityRecord> }` where
`EntityRecord = (EntityType, f32, f32)`. -/
structure LevelMetadata where
  layout : List (EntityType × ℚ × ℚ)
deriving DecidableEq, Repr

/-- The `LevelStatus` enum returned by `Levels::pop`. -/
inductive LevelStatus
  | SmallLevel (m : LevelMetadata)
  | LargeLevel (m : LevelMetadata)
  | TransitionTime (m : LevelMetadata)
  | AllDone
deriving DecidableEq, Repr

/-- The `Levels` struct: the two level stacks and the small-levels flag. -/
structure Levels where
  small_levels : List LevelMetadata
  large_levels : List LevelMetadata
  use_small_levels : Bool
deriving DecidableEq, Repr

/-- Rust `Vec::pop`: remove and return the LAST element. -/
def vecPop {α : Type} (l : List α) : Option α × List α :=
  match l.getLast? with
  | none => (none, l)
  | some a => (some a, l.dropLast)

/-- `Levels::pop` (`&mut self` modelled by returning the updated `Levels`). -/
def Levels.pop (s : Levels) : Option LevelStatus × Levels :=
  if s.use_small_levels then
    match vecPop s.small_levels with
    | (some metadata, rest) =>
      if rest.isEmpty then
        (some (LevelStatus.TransitionTime metadata),
          { s with small_levels := rest, use_small_levels := false })
      else
        (some (LevelStatus.SmallLevel metadata), { s with small_levels := rest })
    | (none, _) => (none, s)
  else
    match vecPop s.large_levels with
    | (some metadata, rest) =>
      (some (LevelStatus.LargeLevel metadata), { s with large_levels := rest })
    | (none, _) => (some LevelStatus.AllDone, s)

/-! ## Perspective state machine (`src/components/perspective.rs`) -/

/-- `PerspectiveStatus`. -/
inductive PerspectiveStatus
  | Zooming
  | Reversing
  | Completed
deriving DecidableEq, Repr

/-- The `Perspective` struct. -/
structure Perspective where
  scale_factor : ℚ
  scale_min : ℚ
  status : PerspectiveStatus
  already_played_sound : Bool
  sound : SoundType
deriving DecidableEq, Repr

/-- `Perspective::new`. -/
def Perspective.new (scale_factor scale_min : ℚ) (sound : SoundType) : Perspective :=
  { scale_factor := scale_factor
    scale_min := scale_min
    status := PerspectiveStatus.Zooming
    already_played_sound := false
    sound := sound }

/-- `Perspective::next_z_rotation`.  The `thread_rng().gen_range(-0.5, 0.5)`
sample is passed in as `next_rotation`.  The function takes `&mut self` but
never modifies `self`, so only the returned value is modelled. -/
def Perspective.next_z_rotation (p : Perspective) (next_rotation : ℚ) (time : ℚ) :
    Option ℚ :=
  match p.status with
  | PerspectiveStatus.Zooming => some (next_rotation * time)
  | _ => none

/-- `Perspective::next_scale` (returns the `Option<Vector3<f32>>` together
with the updated `Perspective`; `Vector3` is modelled as a triple). -/
def Perspective.next_scale (p : Perspective) (current_scale time : ℚ) :
    Option (ℚ × ℚ × ℚ) × Perspective :=
  match p.status with
  | PerspectiveStatus.Completed => (none, p)
  | PerspectiveStatus.Reversing =>
    let new_scale := current_scale + p.scale_factor * time
    if new_scale ≥ 1 then
      (some (1, 1, 1), { p with status := PerspectiveStatus.Completed })
    else
      (some (new_scale, new_scale, new_scale), p)
  | PerspectiveStatus.Zooming =>
    if current_scale ≤ p.scale_min then
      (none, { p with status := PerspectiveStatus.Reversing })
    else
      let new_scale := current_scale - p.scale_factor * time
      (some (new_scale, new_scale, new_scale), p)

/-! ## Movement strategy engine (`src/components/movement.rs`)

The velocity computation uses `f32::atan2`, `cos` and `sin`, so this part
of the embedding lives over `ℝ`, with `atan2 y x` modelled as the argument
of the complex number `x + y·i` (the standard mathematical semantics of
`atan2`, with `atan2 0 0 = 0` as in IEEE). -/

/-- `MovementType`. -/
inductive MovementType
  | Gravitate
  | HorizontalRush
  | ProjectileRush
deriving DecidableEq, Repr

/-- The `Movement` component struct. -/
structure Movement where
  speed : ℝ
  velocity_x : ℝ
  velocity_y : ℝ
  freeze_direction : Bool
  locked_direction : Option (ℝ × ℝ × ℝ)
  already_rotated : Bool
  launch_sound : Option SoundType
  movement_type : MovementType

/-- `f32::atan2(self = y, other = x)`: the argument of `x + y·i`. -/
noncomputable def atan2 (y x : ℝ) : ℝ := Complex.arg ⟨x, y⟩

/-- `Movement::get_speed`. -/
def Movement.get_speed (m : Movement) : ℝ := m.speed

/-- `Movement::move_towards` (the `Gravitate` strategy). -/
noncomputable def Movement.move_towards (m : Movement)
    (target_x target_y current_x current_y : ℝ) : Movement :=
  let dx := target_x - current_x
  let dy := target_y - current_y
  let angle := atan2 dy dx
  { m with
    velocity_x := m.get_speed * Real.cos angle
    velocity_y := m.get_speed * Real.sin angle }

open Classical in
/-- `Movement::rush_towards` (the `HorizontalRush` strategy). -/
noncomputable def Movement.rush_towards (m : Movement)
    (target_x target_y target_z current_x current_y : ℝ) : Movement :=
  let player_in_range :=
    |current_x - target_x| ≤ 150 ∨ |current_y - target_y| ≤ 150
  if m.freeze_direction = false ∧ player_in_range then
    let m1 := m.move_towards target_x target_y current_x current_y
    { m1 with
      locked_direction := some (target_x, target_y, target_z)
      freeze_direction := true }
  else m

/-- `Movement::projectile_rush` (the `ProjectileRush` strategy). -/
noncomputable def Movement.projectile_rush (m : Movement)
    (target_x target_y target_z current_x current_y : ℝ) : Movement :=
  if m.freeze_direction = false then
    let m1 :=
      { m with
        locked_direction := some (target_x, target_y, target_z)
        freeze_direction := true }
    m1.move_towards target_x target_y current_x current_y
  else m

/-- `Movement::next_move` — strategy dispatch. -/
noncomputable def Movement.next_move (m : Movement)
    (target_x target_y target_z current_x current_y : ℝ) : Movement :=
  match m.movement_type with
  | MovementType.Gravitate => m.move_towards target_x target_y current_x current_y
  | MovementType.HorizontalRush =>
    m.rush_towards target_x target_y target_z current_x current_y
  | MovementType.ProjectileRush =>
    m.projectile_rush target_x target_y target_z current_x current_y

/-! ## Enemy health (`src/entities/enemy.rs`) -/

/-- The `Enemy` struct. -/
structure Enemy where
  health : ℚ
deriving DecidableEq, Repr

/-- `Enemy::is_dead`. -/
def Enemy.is_dead (e : Enemy) : Bool := decide (e.health ≤ 0)

/-- `Enemy::take_damage`. -/
def Enemy.take_damage (e : Enemy) (damage : ℚ) : Enemy :=
  { health := e.health - damage }

/-! ## Laser-vs-enemy collision resolution (`src/systems/collision.rs`)

The system iterates over every laser; for each laser it builds an AABB from
a `Cuboid::new(Vector2::new(17.5, 2.5))` at the laser's translation, then
iterates over every enemy: on `collides && !enemy.is_dead()` the enemy
takes 20.0 damage, the laser entity is deleted, and, if the enemy is now
dead, the enemy entity is deleted (plus ghost/sound side effects).

Entity deletion in the `specs` ECS world is deferred to the next
`world.maintain()`, so within one run of the system the `join`s still see
every entity; deletions are modelled by recording indices.  Within a single
laser's inner pass each enemy slot is visited exactly once and no other
slot is read, so the pass is modelled as a map over the (index, slot) list;
damage events are recorded as `(laser index, enemy index, amount)`. -/

/-- The translation of a laser's `Transform`. -/
structure LaserInfo where
  x : ℚ
  y : ℚ
deriving DecidableEq, Repr

/-- One enemy as seen by the join: its `Enemy` component, its transform
translation and its `Collider`. -/
structure EnemySlot where
  enemy : Enemy
  x : ℚ
  y : ℚ
  collider : Collider
deriving DecidableEq, Repr

/-- One application of damage: which laser hit which enemy, and the amount. -/
structure HitEvent where
  laser : ℕ
  enemy : ℕ
  amount : ℚ
deriving DecidableEq, Repr

/-- The half extents of `Cuboid::new(Vector2::new(17.5, 2.5))`. -/
def laser_cube : Collider := { half_width := 35 / 2, half_height := 5 / 2 }

/-- The laser's bounding volume `aabb_laser`. -/
def laserAABB (l : LaserInfo) : AABB :=
  laser_cube.aabb_from_coordinates l.x l.y

/-- The guard of the inner loop body:
`collides && !enemy.is_dead()`. -/
def hitGuard (aabb_laser : AABB) (s : EnemySlot) : Bool :=
  s.collider.intersects s.x s.y aabb_laser && !s.enemy.is_dead

/-- The inner loop body applied to one enemy slot. -/
def updateSlot (aabb_laser : AABB) (s : EnemySlot) : EnemySlot :=
  if hitGuard aabb_laser s then { s with enemy := s.enemy.take_damage 20 }
  else s

/-- The cumulative output of the system: updated enemy slots, recorded
damage events, deleted laser indices and deleted enemy indices. -/
structure CollisionOut where
  slots : List (ℕ × EnemySlot)
  events : List HitEvent
  deleted_lasers : List ℕ
  deleted_enemies : List ℕ
deriving DecidableEq, Repr

/-- One laser's pass over all enemy slots (the inner `for` loop of
`CollisionSystem::run` for the laser with index `li`). -/
def runLaser (li : ℕ) (aabb_laser : AABB) (slots : List (ℕ × EnemySlot)) :
    List (ℕ × EnemySlot) × List HitEvent × Bool × List ℕ :=
  ( slots.map (fun p => (p.1, updateSlot aabb_laser p.2)),
    slots.filterMap (fun p =>
      if hitGuard aabb_laser p.2 then some ⟨li, p.1, 20⟩ else none),
    slots.any (fun p => hitGuard aabb_laser p.2),
    slots.filterMap (fun p =>
      if hitGuard aabb_laser p.2 && (p.2.enemy.take_damage 20).is_dead then
        some p.1
      else none) )

/-- The outer `for` loop of `CollisionSystem::run`, starting at laser
index `li`. -/
def runCollision : ℕ → List LaserInfo → List (ℕ × EnemySlot) → CollisionOut
  | _, [], slots => ⟨slots, [], [], []⟩
  | li, l :: ls, slots =>
    let pass := runLaser li (laserAABB l) slots
    let rest := runCollision (li + 1) ls pass.1
    { slots := rest.slots
      events := pass.2.1 ++ rest.events
      deleted_lasers := (if pass.2.2.1 then [li] else []) ++ rest.deleted_lasers
      deleted_enemies := pass.2.2.2 ++ rest.deleted_enemies }

/-- `CollisionSystem::run` on a list of lasers and a list of enemies. -/
def collision_system (lasers : List LaserInfo) (enemies : List EnemySlot) :
    CollisionOut :=
  runCollision 0 lasers enemies.enum

/-! ## Theorems -/

/-- Symmetry of the raw AABB intersection test. -/
theorem AABB.intersects_comm (a b : AABB) : a.intersects b = b.intersects a := by
  simp only [AABB.intersects, ge_iff_le]
  rw [Bool.eq_iff_iff]
  simp only [Bool.and_eq_true, decide_eq_true_eq]
  tauto

/-- C7: AABB intersection is symmetric — for every pair of bounding boxes
built from a collider's half-extents and a center position,
`intersects(A, B)` returns the same boolean as `intersects(B, A)`. -/
theorem aabb_intersects_symmetric (c1 c2 : Collider) (x1 y1 x2 y2 : ℚ) :
    AABB.intersects (c1.aabb_from_coordinates x1 y1) (c2.aabb_from_coordinates x2 y2) =
      AABB.intersects (c2.aabb_from_coordinates x2 y2) (c1.aabb_from_coordinates x1 y1) :=
  AABB.intersects_comm _ _

/-- C9: `relative_coordinates` maps the corner percentages exactly —
`(0, 0)` yields `(min_x, min_y)` and `(1, 1)` yields `(max_x, max_y)`. -/
theorem relative_coordinates_corners (a : PlayableArea) :
    a.relative_coordinates 0 0 = (a.min_x, a.min_y) ∧
      a.relative_coordinates 1 1 = (a.max_x, a.max_y) := by
  constructor <;> simp [PlayableArea.relative_coordinates]

/-- C1: starting from one queued small level `S` and one queued large level
`L` with `use_small_levels = true`, successive `pop`s yield exactly
`TransitionTime S`, then `LargeLevel L`, then `AllDone`, with the
post-`AllDone` state a fixed point of `pop` (so every subsequent call
yields `AllDone` again); `use_small_levels` flips to `false` on the pop
that empties `small_levels` and stays `false` in every later state. -/
theorem levels_pop_one_small_one_large (S L : LevelMetadata) :
    (Levels.pop ⟨[S], [L], true⟩ =
        (some (LevelStatus.TransitionTime S), ⟨[], [L], false⟩)) ∧
      (Levels.pop ⟨[], [L], false⟩ =
        (some (LevelStatus.LargeLevel L), ⟨[], [], false⟩)) ∧
      (Levels.pop ⟨[], [], false⟩ =
        (some LevelStatus.AllDone, ⟨[], [], false⟩)) := by
  refine ⟨?_, ?_, ?_⟩ <;> simp [Levels.pop, vecPop]

/-- C2 counterexample: a `Fader` starting `Darken` with `speed = 2.0` and
`alpha = 0` driven with `dt = 0.6` returns alpha `1.2`, not the claimed
clamped `1.0` (the direction does switch to `Lighten`). -/
theorem fader_overshoot_counterexample :
    (Fader.next_alpha_change ⟨2, Fade.Darken, 0⟩ (3 / 5)).1 = 6 / 5 ∧
      ((6 : ℚ) / 5 ≠ 1) ∧
      (Fader.next_alpha_change ⟨2, Fade.Darken, 0⟩ (3 / 5)).2.fade_direction =
        Fade.Lighten := by
  refine ⟨?_, by norm_num, ?_⟩ <;>
    norm_num [Fader.next_alpha_change, Fader.is_darkened, Fader.is_lightened]

/-- C2 (amended): `next_alpha_change` adds `speed*dt` while `Darken` and
subtracts it while `Lighten`, returning the updated alpha WITHOUT clamping;
on reaching `alpha ≥ 1` while `Darken` the direction switches to `Lighten`,
on reaching `alpha ≤ 0` while `Lighten` it switches to `Done`; once `Done`
the alpha is returned unchanged and the direction stays `Done`; the
post-call direction is `Darken` only if the pre-call direction was `Darken`
(so `Darken` is never re-entered). -/
theorem fader_next_alpha_change_spec (f : Fader) (dt : ℚ) :
    (Fader.next_alpha_change { f with fade_direction := Fade.Darken } dt =
        (f.alpha + f.fade_speed * dt,
          { f with
            fade_direction :=
              if f.alpha + f.fade_speed * dt ≥ 1 then Fade.Lighten else Fade.Darken
            alpha := f.alpha + f.fade_speed * dt })) ∧
      (Fader.next_alpha_change { f with fade_direction := Fade.Lighten } dt =
        (f.alpha - f.fade_speed * dt,
          { f with
            fade_direction :=
              if f.alpha - f.fade_speed * dt ≤ 0 then Fade.Done else Fade.Lighten
            alpha := f.alpha - f.fade_speed * dt })) ∧
      (Fader.next_alpha_change { f with fade_direction := Fade.Done } dt =
        (f.alpha, { f with fade_direction := Fade.Done })) ∧
      ((f.next_alpha_change dt).2.fade_direction = Fade.Darken →
        f.fade_direction = Fade.Darken) := by
  refine ⟨?_, ?_, ?_, ?_⟩
  · by_cases h : f.alpha + f.fade_speed * dt ≥ 1 <;>
      simp [Fader.next_alpha_change, Fader.is_darkened, Fader.is_lightened, h]
  · by_cases h : f.alpha - f.fade_speed * dt ≤ 0 <;>
      simp [Fader.next_alpha_change, Fader.is_darkened, Fader.is_lightened, h]
  · simp [Fader.next_alpha_change, Fader.is_darkened, Fader.is_lightened]
  · intro h
    rcases hd : f.fade_direction with _ | _ | _
    · rfl
    · exfalso
      revert h
      simp only [Fader.next_alpha_change, Fader.is_darkened, Fader.is_lightened, hd]
      split_ifs <;> simp_all
    · exfalso
      revert h
      simp only [Fader.next_alpha_change, Fader.is_darkened, Fader.is_lightened, hd]
      split_ifs <;> simp_all

/-- C2 witness: the never-re-enter-`Darken` implication instantiated at a
concrete fader whose post-call direction is `Darken`. -/
theorem fader_next_alpha_change_spec_witness :
    (Fader.mk 1 Fade.Darken 0).fade_direction = Fade.Darken :=
  (fader_next_alpha_change_spec (Fader.mk 1 Fade.Darken 0) (1 / 2)).2.2.2
    (by norm_num [Fader.next_alpha_change, Fader.is_darkened, Fader.is_lightened])

/-- C3 counterexample: with `fire_delay = 1.0` and `seconds_since_firing = 0`,
two successive `can_fire` calls with `dt = 0.5` return `false` and then
`false` again (the claim says the second call returns `true`): the
threshold test runs before the accumulation, so the counter only reaches
the delay after the second call returns. -/
theorem can_fire_second_call_counterexample :
    (Launcher.can_fire ⟨1, 0, 0⟩ (1 / 2) (1 / 2)).1 = false ∧
      (Launcher.can_fire (Launcher.can_fire ⟨1, 0, 0⟩ (1 / 2) (1 / 2)).2
          (1 / 2) (1 / 2)).1 = false := by
  constructor <;> norm_num [Launcher.can_fire]

/-- C3 (amended): with `fire_delay = 1.0` and `seconds_since_firing = 0`,
successive `can_fire` calls with `dt = 0.5` return `false`, `false`, then
`true` (the check runs before the accumulation, so the counter reaches the
delay one call later than the claim states); the `true` call resets the
counter to the random jitter in `[0.1, 0.9)`, so the call made immediately
after the `true` call returns `false`. -/
theorem can_fire_sequence (p j : ℚ) (h1 : 1 / 10 ≤ j) (h2 : j < 9 / 10) :
    (Launcher.can_fire ⟨1, p, 0⟩ j (1 / 2) = (false, ⟨1, p, 1 / 2⟩)) ∧
      (Launcher.can_fire ⟨1, p, 1 / 2⟩ j (1 / 2) = (false, ⟨1, p, 1⟩)) ∧
      (Launcher.can_fire ⟨1, p, 1⟩ j (1 / 2) = (true, ⟨1, p, j⟩)) ∧
      ((Launcher.can_fire ⟨1, p, j⟩ j (1 / 2)).1 = false) := by
  have hj : ¬ j ≥ 1 := by linarith
  refine ⟨?_, ?_, ?_, ?_⟩ <;> norm_num [Launcher.can_fire, hj]

/-- C3 witness: the amended firing sequence at jitter `j = 0.5`. -/
theorem can_fire_sequence_witness :
    (1 : ℚ) / 10 ≤ 1 / 2 ∧ (1 : ℚ) / 2 < 9 / 10 ∧
      (Launcher.can_fire ⟨1, 0, 1⟩ (1 / 2) (1 / 2) = (true, ⟨1, 0, 1 / 2⟩)) :=
  ⟨by norm_num, by norm_num,
    (can_fire_sequence 0 (1 / 2) (by norm_num) (by norm_num)).2.2.1⟩

/-- C4 counterexample: the `Perspective` machine is not the claimed
two-state countdown machine.  From `Zooming` (the shaking state), once the
caller-supplied scale reaches the `scale_min` threshold, `next_scale`
switches the status to `Reversing` — a third state that is neither of the
claim's `Shaking`/`Completed` — and in that state `next_z_rotation`
already emits no rotation even though the machine is not `Completed`. -/
theorem perspective_third_state_counterexample :
    ((Perspective.new 1 (1 / 2) SoundType.ShortTransition).next_scale (1 / 2) 1).2.status =
        PerspectiveStatus.Reversing ∧
      PerspectiveStatus.Reversing ≠ PerspectiveStatus.Completed ∧
      PerspectiveStatus.Reversing ≠ PerspectiveStatus.Zooming ∧
      (((Perspective.new 1 (1 / 2) SoundType.ShortTransition).next_scale (1 / 2) 1).2.next_z_rotation
          (1 / 4) 1 = none) := by
  refine ⟨?_, by decide, by decide, ?_⟩ <;>
    norm_num [Perspective.new, Perspective.next_scale, Perspective.next_z_rotation]

/-- C4 (amended): the `Perspective` machine has the three states `Zooming`
(the shaking state), `Reversing` and `Completed`.  `next_z_rotation` emits
the random sample scaled by `dt` while `Zooming` and `none` in the other
two states.  The transitions are driven by `next_scale` on the
caller-supplied scale, not by an internal countdown: while `Zooming`, once
`current_scale ≤ scale_min` the status switches to `Reversing` (emitting
`none`), otherwise the scale shrinks by `scale_factor*dt`; while
`Reversing` the scale grows by `scale_factor*dt` until reaching `≥ 1`,
when it clamps to 1 and the status switches to `Completed`; once
`Completed`, `next_scale` emits `none` and the status never changes. -/
theorem perspective_state_machine_spec (p : Perspective) (r t cs : ℚ) :
    (({ p with status := PerspectiveStatus.Zooming } : Perspective).next_z_rotation r t =
        some (r * t)) ∧
      (({ p with status := PerspectiveStatus.Reversing } : Perspective).next_z_rotation r t =
        none) ∧
      (({ p with status := PerspectiveStatus.Completed } : Perspective).next_z_rotation r t =
        none) ∧
      (({ p with status := PerspectiveStatus.Zooming } : Perspective).next_scale cs t =
        if cs ≤ p.scale_min then
          (none, { p with status := PerspectiveStatus.Reversing })
        else
          (some (cs - p.scale_factor * t, cs - p.scale_factor * t, cs - p.scale_factor * t),
            { p with status := PerspectiveStatus.Zooming })) ∧
      (({ p with status := PerspectiveStatus.Reversing } : Perspective).next_scale cs t =
        if cs + p.scale_factor * t ≥ 1 then
          (some (1, 1, 1), { p with status := PerspectiveStatus.Completed })
        else
          (some (cs + p.scale_factor * t, cs + p.scale_factor * t, cs + p.scale_factor * t),
            { p with status := PerspectiveStatus.Reversing })) ∧
      (({ p with status := PerspectiveStatus.Completed } : Perspective).next_scale cs t =
        (none, { p with status := PerspectiveStatus.Completed })) := by
  refine ⟨rfl, rfl, rfl, ?_, ?_, rfl⟩
  · by_cases h : cs ≤ p.scale_min <;> simp [Perspective.next_scale, h]
  · by_cases h : cs + p.scale_factor * t ≥ 1 <;> simp [Perspective.next_scale, h]

/-- C5: once `freeze_direction` is `true`, both `rush_towards` and
`projectile_rush` are complete no-ops for every target and current
coordinate input — in particular `locked_direction`, `velocity_x` and
`velocity_y` are unchanged. -/
theorem rush_frozen_noop (m : Movement) (tx ty tz cx cy : ℝ)
    (h : m.freeze_direction = true) :
    m.rush_towards tx ty tz cx cy = m ∧ m.projectile_rush tx ty tz cx cy = m := by
  constructor <;> simp [Movement.rush_towards, Movement.projectile_rush, h]

/-- C5 witness: a locked `HorizontalRush` mover called again with target
`(999, 999, 0)` keeps its state. -/
theorem rush_frozen_noop_witness :
    (Movement.mk 5 1 2 true (some (100, 100, 0)) false none
          MovementType.HorizontalRush).freeze_direction = true ∧
      ((Movement.mk 5 1 2 true (some (100, 100, 0)) false none
            MovementType.HorizontalRush).rush_towards 999 999 0 0 0 =
          Movement.mk 5 1 2 true (some (100, 100, 0)) false none
            MovementType.HorizontalRush ∧
        (Movement.mk 5 1 2 true (some (100, 100, 0)) false none
            MovementType.HorizontalRush).projectile_rush 999 999 0 0 0 =
          Movement.mk 5 1 2 true (some (100, 100, 0)) false none
            MovementType.HorizontalRush) :=
  ⟨rfl,
    rush_frozen_noop
      (Movement.mk 5 1 2 true (some (100, 100, 0)) false none
        MovementType.HorizontalRush) 999 999 0 0 0 rfl⟩

/-- C8: for a target distinct from the current position and nonnegative
speed, `move_towards` (the `Gravitate` strategy) writes the velocity
`(speed*cos(angle), speed*sin(angle))` with
`angle = atan2(target.y - self.y, target.x - self.x)`, and that velocity
has magnitude exactly `speed`. -/
theorem gravitate_velocity_magnitude (m : Movement) (tx ty cx cy : ℝ)
    (hne : (tx, ty) ≠ (cx, cy)) (hs : 0 ≤ m.speed) :
    (m.move_towards tx ty cx cy).velocity_x =
        m.speed * Real.cos (atan2 (ty - cy) (tx - cx)) ∧
      (m.move_towards tx ty cx cy).velocity_y =
        m.speed * Real.sin (atan2 (ty - cy) (tx - cx)) ∧
      Real.sqrt ((m.move_towards tx ty cx cy).velocity_x ^ 2 +
          (m.move_towards tx ty cx cy).velocity_y ^ 2) = m.speed := by
  refine ⟨rfl, rfl, ?_⟩
  have hsum :
      (m.move_towards tx ty cx cy).velocity_x ^ 2 +
          (m.move_towards tx ty cx cy).velocity_y ^ 2 = m.speed ^ 2 := by
    show (m.get_speed * Real.cos (atan2 (ty - cy) (tx - cx))) ^ 2 +
        (m.get_speed * Real.sin (atan2 (ty - cy) (tx - cx))) ^ 2 = m.speed ^ 2
    have h := Real.cos_sq_add_sin_sq (atan2 (ty - cy) (tx - cx))
    simp only [Movement.get_speed]
    nlinarith [h]
  rw [hsum, Real.sqrt_sq hs]

/-- C8 witness: a `Gravitate` mover with speed 5 aiming from the origin at
`(3, 4)` gets a velocity of magnitude 5. -/
theorem gravitate_velocity_magnitude_witness :
    ((3 : ℝ), (4 : ℝ)) ≠ ((0 : ℝ), (0 : ℝ)) ∧ (0 : ℝ) ≤ 5 ∧
      Real.sqrt
          (((Movement.mk 5 0 0 false none false none
                  MovementType.Gravitate).move_towards 3 4 0 0).velocity_x ^ 2 +
            ((Movement.mk 5 0 0 false none false none
                  MovementType.Gravitate).move_towards 3 4 0 0).velocity_y ^ 2) = 5 :=
  ⟨by norm_num, by norm_num,
    (gravitate_velocity_magnitude
        (Movement.mk 5 0 0 false none false none MovementType.Gravitate) 3 4 0 0
        (by norm_num) (by norm_num)).2.2⟩

/-- C10: under every strategy, `next_move` leaves `speed` (and the other
non-velocity bookkeeping fields `already_rotated`, `launch_sound`,
`movement_type`) unchanged — only `velocity_x`, `velocity_y`,
`freeze_direction` and `locked_direction` may be modified. -/
theorem next_move_preserves_speed (m : Movement) (tx ty tz cx cy : ℝ) :
    (m.next_move tx ty tz cx cy).speed = m.speed ∧
      (m.next_move tx ty tz cx cy).already_rotated = m.already_rotated ∧
      (m.next_move tx ty tz cx cy).launch_sound = m.launch_sound ∧
      (m.next_move tx ty tz cx cy).movement_type = m.movement_type := by
  rcases hmt : m.movement_type <;>
    simp only [Movement.next_move, hmt, Movement.move_towards, Movement.rush_towards,
      Movement.projectile_rush, Movement.get_speed] <;>
    first
      | simp_all
      | (split_ifs <;> simp_all)

/-! ### Collision-system lemmas -/

/-- Unfolding lemma for one step of the outer laser loop. -/
theorem runCollision_cons (li : ℕ) (l : LaserInfo) (ls : List LaserInfo)
    (slots : List (ℕ × EnemySlot)) :
    runCollision li (l :: ls) slots =
      { slots :=
          (runCollision (li + 1) ls
            (slots.map fun p => (p.1, updateSlot (laserAABB l) p.2))).slots
        events :=
          (slots.filterMap fun p =>
            if hitGuard (laserAABB l) p.2 then some ⟨li, p.1, 20⟩ else none) ++
            (runCollision (li + 1) ls
              (slots.map fun p => (p.1, updateSlot (laserAABB l) p.2))).events
        deleted_lasers :=
          (if slots.any fun p => hitGuard (laserAABB l) p.2 then [li] else []) ++
            (runCollision (li + 1) ls
              (slots.map fun p => (p.1, updateSlot (laserAABB l) p.2))).deleted_lasers
        deleted_enemies :=
          (slots.filterMap fun p =>
            if hitGuard (laserAABB l) p.2 && (p.2.enemy.take_damage 20).is_dead then
              some p.1
            else none) ++
            (runCollision (li + 1) ls
              (slots.map fun p =>
                (p.1, updateSlot (laserAABB l) p.2))).deleted_enemies } := rfl

/-- `updateSlot` never changes the geometric data of a slot. -/
theorem updateSlot_geometry (a : AABB) (s : EnemySlot) :
    (updateSlot a s).x = s.x ∧ (updateSlot a s).y = s.y ∧
      (updateSlot a s).collider = s.collider := by
  unfold updateSlot; split <;> exact ⟨rfl, rfl, rfl⟩

/-- `updateSlot` never increases health. -/
theorem updateSlot_health_le (a : AABB) (s : EnemySlot) :
    (updateSlot a s).enemy.health ≤ s.enemy.health := by
  unfold updateSlot; split
  · simp only [Enemy.take_damage]; linarith
  · exact le_refl _

/-- A dead slot is untouched by `updateSlot`. -/
theorem updateSlot_of_dead (a : AABB) (s : EnemySlot)
    (h : s.enemy.is_dead = true) : updateSlot a s = s := by
  simp [updateSlot, hitGuard, h]

/-- `updateSlot` keeps health strictly above `-20` (a hit is only applied
to a live enemy, so health can drop at most one `20.0` step below zero). -/
theorem updateSlot_health_lb (a : AABB) (s : EnemySlot)
    (h : -20 < s.enemy.health) : -20 < (updateSlot a s).enemy.health := by
  unfold updateSlot
  split
  case isTrue hg =>
    have halive : ¬ s.enemy.health ≤ 0 := by
      rcases Bool.and_eq_true .. |>.mp hg with ⟨-, hnd⟩
      simpa [Enemy.is_dead] using hnd
    simp only [Enemy.take_damage]
    linarith
  case isFalse _ => exact h

/-- Pointwise shape preservation: the final slot at any position keeps its
key and geometry, and its health never goes up. -/
theorem coll_slots_get (li : ℕ) (ls : List LaserInfo)
    (slots : List (ℕ × EnemySlot)) (k : ℕ) (p : ℕ × EnemySlot)
    (h : slots[k]? = some p) :
    ∃ q, (runCollision li ls slots).slots[k]? = some q ∧ q.1 = p.1 ∧
      q.2.x = p.2.x ∧ q.2.y = p.2.y ∧ q.2.collider = p.2.collider ∧
      q.2.enemy.health ≤ p.2.enemy.health := by
  induction ls generalizing li slots p with
  | nil => exact ⟨p, h, rfl, rfl, rfl, rfl, le_refl _⟩
  | cons l ls ih =>
    have h1 :
        (slots.map fun p => (p.1, updateSlot (laserAABB l) p.2))[k]? =
          some (p.1, updateSlot (laserAABB l) p.2) := by
      rw [List.getElem?_map, h]; rfl
    obtain ⟨q, hq, e1, e2, e3, e4, e5⟩ := ih (li + 1) _ _ h1
    obtain ⟨g1, g2, g3⟩ := updateSlot_geometry (laserAABB l) p.2
    refine ⟨q, ?_, e1, ?_, ?_, ?_, ?_⟩
    · rw [runCollision_cons]; exact hq
    · rw [e2, g1]
    · rw [e3, g2]
    · rw [e4, g3]
    · exact le_trans e5 (updateSlot_health_le _ _)

/-- Every recorded event carries damage amount `20` and a laser index at or
above the starting index of the loop. -/
theorem coll_events_amount (li : ℕ) (ls : List LaserInfo)
    (slots : List (ℕ × EnemySlot)) :
    ∀ ev ∈ (runCollision li ls slots).events, ev.amount = 20 ∧ li ≤ ev.laser := by
  induction ls generalizing li slots with
  | nil => intro ev hev; simp [runCollision] at hev
  | cons l ls ih =>
    intro ev hev
    rw [runCollision_cons] at hev
    rcases List.mem_append.mp hev with hev | hev
    · rcases List.mem_filterMap.mp hev with ⟨p, -, hp⟩
      split at hp
      · cases Option.some.inj hp; exact ⟨rfl, le_refl _⟩
      · exact absurd hp (by simp)
    · obtain ⟨h20, hle⟩ := ih (li + 1) _ ev hev
      exact ⟨h20, by omega⟩

/-- Every recorded event's laser is marked deleted. -/
theorem coll_events_laser_deleted (li : ℕ) (ls : List LaserInfo)
    (slots : List (ℕ × EnemySlot)) :
    ∀ ev ∈ (runCollision li ls slots).events,
      ev.laser ∈ (runCollision li ls slots).deleted_lasers := by
  induction ls generalizing li slots with
  | nil => intro ev hev; simp [runCollision] at hev
  | cons l ls ih =>
    intro ev hev
    rw [runCollision_cons] at hev ⊢
    rcases List.mem_append.mp hev with hev | hev
    · rcases List.mem_filterMap.mp hev with ⟨p, hpmem, hp⟩
      have hguard : hitGuard (laserAABB l) p.2 = true := by
        by_contra hg
        simp [hg] at hp
      have hev_laser : ev.laser = li := by
        rw [if_pos hguard] at hp
        cases Option.some.inj hp; rfl
      have hany : (slots.any fun p => hitGuard (laserAABB l) p.2) = true :=
        List.any_eq_true.mpr ⟨p, hpmem, hguard⟩
      rw [hany, hev_laser]
      exact List.mem_append.mpr (Or.inl (by simp))
    · exact List.mem_append.mpr (Or.inr (ih (li + 1) _ ev hev))

/-- In a key-distinct slot list, any member sharing the key of the slot at
position `k` is that slot. -/
theorem key_unique (slots : List (ℕ × EnemySlot))
    (hnd : slots.Pairwise fun p q => p.1 ≠ q.1) (k j : ℕ) (s : EnemySlot)
    (hk : slots[k]? = some (j, s)) :
    ∀ p ∈ slots, p.1 = j → p = (j, s) := by
  induction slots generalizing k with
  | nil => intro p hp; exact absurd hp (List.not_mem_nil p)
  | cons q rest ih =>
    rcases List.pairwise_cons.mp hnd with ⟨hq, hrest⟩
    intro p hp hpj
    rcases k with _ | k
    · have hqjs : q = (j, s) := by simpa using hk
      rcases List.mem_cons.mp hp with hp | hp
      · rw [hp, hqjs]
      · exfalso
        exact hq p hp (by rw [hpj, hqjs])
    · have hk' : rest[k]? = some (j, s) := by simpa using hk
      rcases List.mem_cons.mp hp with hp | hp
      · exfalso
        have hmem : (j, s) ∈ rest := List.getElem?_mem hk'
        exact hq (j, s) hmem (by rw [← hp, hpj])
      · exact ih hrest k hk' p hp hpj

/-- Key-distinctness of slots is preserved by a laser pass. -/
theorem pass_pairwise (a : AABB) (slots : List (ℕ × EnemySlot))
    (hnd : slots.Pairwise fun p q => p.1 ≠ q.1) :
    (slots.map fun p => (p.1, updateSlot a p.2)).Pairwise
      fun p q => p.1 ≠ q.1 := by
  rw [List.pairwise_map]
  exact hnd.imp fun h => h

/-- Recorded events never repeat a (laser, enemy) pair: within one laser
pass the enemy indices are distinct, and distinct passes use distinct
laser indices. -/
theorem coll_events_pairwise (li : ℕ) (ls : List LaserInfo)
    (slots : List (ℕ × EnemySlot))
    (hnd : slots.Pairwise fun p q => p.1 ≠ q.1) :
    (runCollision li ls slots).events.Pairwise
      fun e1 e2 => (e1.laser, e1.enemy) ≠ (e2.laser, e2.enemy) := by
  induction ls generalizing li slots with
  | nil => simp [runCollision]
  | cons l ls ih =>
    rw [runCollision_cons]
    refine List.pairwise_append.mpr ⟨?_, ih (li + 1) _ (pass_pairwise _ _ hnd), ?_⟩
    · rw [List.pairwise_filterMap]
      refine hnd.imp ?_
      intro p q hpq b hb b' hb'
      split at hb
      · split at hb'
        · simp only [Option.mem_def, Option.some.injEq] at hb hb'
          subst hb
          subst hb'
          simp only [ne_eq, Prod.mk.injEq, not_and]
          intro _
          exact hpq
        · simp at hb'
      · simp at hb
    · intro e1 he1 e2 he2
      have h1 : e1.laser = li := by
        rcases List.mem_filterMap.mp he1 with ⟨p, -, hp⟩
        split at hp
        · cases Option.some.inj hp; rfl
        · exact absurd hp (by simp)
      have h2 : li + 1 ≤ e2.laser := (coll_events_amount (li + 1) _ _ e2 he2).2
      simp only [ne_eq, Prod.mk.injEq, not_and]
      intro hlaser
      exfalso
      omega

/-- An enemy that is already dead when the system runs is never damaged,
never deleted, and its slot is returned unchanged. -/
theorem coll_dead_fixed (li : ℕ) (ls : List LaserInfo)
    (slots : List (ℕ × EnemySlot)) (k j : ℕ) (s : EnemySlot)
    (hnd : slots.Pairwise fun p q => p.1 ≠ q.1)
    (hk : slots[k]? = some (j, s)) (hd : s.enemy.is_dead = true) :
    (∀ ev ∈ (runCollision li ls slots).events, ev.enemy ≠ j) ∧
      j ∉ (runCollision li ls slots).deleted_enemies ∧
      (runCollision li ls slots).slots[k]? = some (j, s) := by
  induction ls generalizing li slots with
  | nil => exact ⟨by simp [runCollision], by simp [runCollision], hk⟩
  | cons l ls ih =>
    have hk1 :
        (slots.map fun p => (p.1, updateSlot (laserAABB l) p.2))[k]? =
          some (j, s) := by
      rw [List.getElem?_map, hk]
      simp [updateSlot_of_dead _ _ hd]
    obtain ⟨ihev, ihdel, ihslots⟩ :=
      ih (li + 1) _ (pass_pairwise _ _ hnd) hk1
    refine ⟨?_, ?_, ?_⟩
    · intro ev hev
      rw [runCollision_cons] at hev
      rcases List.mem_append.mp hev with hev | hev
      · rcases List.mem_filterMap.mp hev with ⟨p, hpmem, hp⟩
        have hguard : hitGuard (laserAABB l) p.2 = true := by
          by_contra hg
          simp [hg] at hp
        rw [if_pos hguard] at hp
        cases Option.some.inj hp
        intro hej
        have hpeq : p = (j, s) := key_unique slots hnd k j s hk p hpmem hej
        rw [hpeq] at hguard
        simp [hitGuard, hd] at hguard
      · exact ihev ev hev
    · rw [runCollision_cons]
      intro hmem
      rcases List.mem_append.mp hmem with hmem | hmem
      · rcases List.mem_filterMap.mp hmem with ⟨p, hpmem, hp⟩
        have hguard :
            (hitGuard (laserAABB l) p.2 && (p.2.enemy.take_damage 20).is_dead) =
              true := by
          by_contra hg
          simp [hg] at hp
        have hpj : p.1 = j := by
          rw [if_pos hguard] at hp
          exact Option.some.inj hp
        have hpeq : p = (j, s) := key_unique slots hnd k j s hk p hpmem hpj
        rw [hpeq] at hguard
        simp [hitGuard, hd] at hguard
      · exact ihdel hmem
    · rw [runCollision_cons]
      exact ihslots

/-- Health never drops to `-20` or below: an enemy absorbs at most one
killing blow (the dead-check precedes every damage application). -/
theorem coll_health_lb (li : ℕ) (ls : List LaserInfo)
    (slots : List (ℕ × EnemySlot)) (k j : ℕ) (s : EnemySlot)
    (hk : slots[k]? = some (j, s)) (h : -20 < s.enemy.health) :
    ∃ s', (runCollision li ls slots).slots[k]? = some (j, s') ∧
      -20 < s'.enemy.health := by
  induction ls generalizing li slots s with
  | nil => exact ⟨s, hk, h⟩
  | cons l ls ih =>
    have hk1 :
        (slots.map fun p => (p.1, updateSlot (laserAABB l) p.2))[k]? =
          some (j, updateSlot (laserAABB l) s) := by
      rw [List.getElem?_map, hk]; rfl
    obtain ⟨s', hs', hlb⟩ :=
      ih (li + 1) _ _ hk1 (updateSlot_health_lb _ _ h)
    exact ⟨s', by rw [runCollision_cons]; exact hs', hlb⟩

/-- If laser `i` (counting from the loop's start index) geometrically
collides with the slot at position `j`, and that slot's final health is
still positive, then the event `(li + i, j, 20)` was recorded. -/
theorem coll_hit_mem (li : ℕ) (ls : List LaserInfo)
    (slots : List (ℕ × EnemySlot)) (i j : ℕ) (l : LaserInfo)
    (s s' : EnemySlot)
    (hl : ls[i]? = some l)
    (hk : slots[j]? = some (j, s))
    (hf : (runCollision li ls slots).slots[j]? = some (j, s'))
    (halive : 0 < s'.enemy.health)
    (hcol : s.collider.intersects s.x s.y (laserAABB l) = true) :
    HitEvent.mk (li + i) j 20 ∈ (runCollision li ls slots).events := by
  induction ls generalizing li slots i s with
  | nil => exact absurd hl (by simp)
  | cons l0 ls ih =>
    have hk1 :
        (slots.map fun p => (p.1, updateSlot (laserAABB l0) p.2))[j]? =
          some (j, updateSlot (laserAABB l0) s) := by
      rw [List.getElem?_map, hk]; rfl
    -- chain the health bound from the final state back through the pass
    have hchain : s'.enemy.health ≤ (updateSlot (laserAABB l0) s).enemy.health := by
      obtain ⟨q, hq, -, -, -, -, hle⟩ :=
        coll_slots_get (li + 1) ls _ j _ hk1
      rw [runCollision_cons] at hf
      rw [hf] at hq
      cases Option.some.inj hq
      exact hle
    rcases i with _ | i
    · -- the head laser is the colliding one: the guard passes
      have hleq : l = l0 := by simpa using hl.symm
      have hs_alive : s.enemy.is_dead = false := by
        have h1 : 0 < (updateSlot (laserAABB l0) s).enemy.health :=
          lt_of_lt_of_le halive hchain
        have h2 : 0 < s.enemy.health :=
          lt_of_lt_of_le h1 (updateSlot_health_le _ _)
        simp [Enemy.is_dead]
        linarith
      have hguard : hitGuard (laserAABB l0) s = true := by
        rw [hitGuard, hs_alive]
        rw [← hleq, hcol]
        rfl
      rw [runCollision_cons]
      refine List.mem_append.mpr (Or.inl ?_)
      refine List.mem_filterMap.mpr ⟨(j, s), List.getElem?_mem hk, ?_⟩
      rw [if_pos hguard, Nat.add_zero]
    · -- the colliding laser is further down: recurse through the pass
      have hl' : ls[i]? = some l := by simpa using hl
      obtain ⟨g1, g2, g3⟩ := updateSlot_geometry (laserAABB l0) s
      have hcol1 :
          (updateSlot (laserAABB l0) s).collider.intersects
            (updateSlot (laserAABB l0) s).x (updateSlot (laserAABB l0) s).y
            (laserAABB l) = true := by
        rw [g1, g2, g3, hcol]
      have hf1 :
          (runCollision (li + 1) ls
              (slots.map fun p => (p.1, updateSlot (laserAABB l0) p.2))).slots[j]? =
            some (j, s') := by
        rw [runCollision_cons] at hf
        exact hf
      have hmem := ih (li + 1) _ i _ hl' hk1 hf1 hcol1
      rw [runCollision_cons]
      refine List.mem_append.mpr (Or.inr ?_)
      have harith : li + 1 + i = li + (i + 1) := by omega
      rw [← harith]
      exact hmem

/-- C6: in laser-vs-enemy collision resolution, every damage application is
`20.0` and no (laser, enemy) pair is processed twice (events are pairwise
distinct on their (laser, enemy) key); every laser that records a hit is
deleted; an enemy already satisfying `is_dead()` when the system runs
receives no damage and no deletion processing; a colliding (laser, enemy)
pair whose enemy is still alive at the end of the tick records its hit
(which with pairwise distinctness is exactly one damage application of
`20.0`); and an enemy alive at the start never takes damage past one
killing blow (final health stays above `-20`), because the dead-check runs
before any damage is applied. -/
theorem laser_enemy_collision_spec (lasers : List LaserInfo)
    (enemies : List EnemySlot) :
    (∀ ev ∈ (collision_system lasers enemies).events, ev.amount = 20) ∧
      ((collision_system lasers enemies).events.Pairwise
        fun e1 e2 => (e1.laser, e1.enemy) ≠ (e2.laser, e2.enemy)) ∧
      (∀ ev ∈ (collision_system lasers enemies).events,
        ev.laser ∈ (collision_system lasers enemies).deleted_lasers) ∧
      (∀ (j : ℕ) (s : EnemySlot), enemies[j]? = some s → s.enemy.is_dead = true →
        (∀ ev ∈ (collision_system lasers enemies).events, ev.enemy ≠ j) ∧
          j ∉ (collision_system lasers enemies).deleted_enemies) ∧
      (∀ (i j : ℕ) (l : LaserInfo) (s s' : EnemySlot),
        lasers[i]? = some l → enemies[j]? = some s →
        (collision_system lasers enemies).slots[j]? = some (j, s') →
        0 < s'.enemy.health →
        s.collider.intersects s.x s.y (laserAABB l) = true →
        HitEvent.mk i j 20 ∈ (collision_system lasers enemies).events) ∧
      (∀ (j : ℕ) (s : EnemySlot), enemies[j]? = some s → 0 < s.enemy.health →
        ∃ s', (collision_system lasers enemies).slots[j]? = some (j, s') ∧
          -20 < s'.enemy.health) := by
  have hnd : enemies.enum.Pairwise fun p q => p.1 ≠ q.1 :=
    List.pairwise_map.mp (List.nodup_enum_map_fst enemies)
  have henum : ∀ (j : ℕ) (s : EnemySlot), enemies[j]? = some s →
      enemies.enum[j]? = some (j, s) := by
    intro j s h
    rw [List.getElem?_enum, h]
    rfl
  refine ⟨?_, ?_, ?_, ?_, ?_, ?_⟩
  · intro ev hev
    exact (coll_events_amount 0 lasers enemies.enum ev hev).1
  · exact coll_events_pairwise 0 lasers enemies.enum hnd
  · exact coll_events_laser_deleted 0 lasers enemies.enum
  · intro j s hj hd
    obtain ⟨h1, h2, -⟩ :=
      coll_dead_fixed 0 lasers enemies.enum j j s hnd (henum j s hj) hd
    exact ⟨h1, h2⟩
  · intro i j l s s' hi hj hf hs hcol
    have h := coll_hit_mem 0 lasers enemies.enum i j l s s' hi (henum j s hj)
      hf hs hcol
    simpa using h
  · intro j s hj hlb
    exact coll_health_lb 0 lasers enemies.enum j j s (henum j s hj)
      (by linarith)

/-- C6 witness: a single laser at the origin colliding with a 40-health
enemy at `(10, 0)` records the one hit of `20.0` and the laser's deletion;
the enemy survives at health `20`. -/
theorem laser_enemy_collision_spec_witness :
    HitEvent.mk 0 0 20 ∈
        (collision_system [LaserInfo.mk 0 0]
          [EnemySlot.mk (Enemy.mk 40) 10 0 (Collider.mk 16 16)]).events ∧
      0 ∈ (collision_system [LaserInfo.mk 0 0]
          [EnemySlot.mk (Enemy.mk 40) 10 0 (Collider.mk 16 16)]).deleted_lasers := by
  obtain ⟨-, -, hdel, -, hhit, -⟩ :=
    laser_enemy_collision_spec [LaserInfo.mk 0 0]
      [EnemySlot.mk (Enemy.mk 40) 10 0 (Collider.mk 16 16)]
  have hm : HitEvent.mk 0 0 20 ∈
      (collision_system [LaserInfo.mk 0 0]
        [EnemySlot.mk (Enemy.mk 40) 10 0 (Collider.mk 16 16)]).events := by
    refine hhit 0 0 (LaserInfo.mk 0 0) (EnemySlot.mk (Enemy.mk 40) 10 0 (Collider.mk 16 16))
      (EnemySlot.mk (Enemy.mk 20) 10 0 (Collider.mk 16 16)) rfl rfl ?_ (by norm_num) ?_
    · norm_num [collision_system, runCollision, runLaser, updateSlot, hitGuard,
        Collider.intersects, Collider.aabb_from_coordinates, AABB.intersects,
        laserAABB, laser_cube, Enemy.is_dead, Enemy.take_damage, List.enum,
        List.enumFrom]
    · norm_num [Collider.intersects, Collider.aabb_from_coordinates,
        AABB.intersects, laserAABB, laser_cube]
  exact ⟨hm, hdel (HitEvent.mk 0 0 20) hm⟩

end Quatronaut
